import Mathlib

/-!
Verification of the agent-generation, function-execution and chat-orchestration
core of the AI_Agent_Swagger backend.

The definitions below are a shallow embedding of the Python sources:

* `Backend/app/services/agent_generator.py` (function-schema compiler),
* `Backend/app/services/api_executor.py` (function-call execution engine),
* `Backend/app/services/llm_service.py` (provider adapters),
* `Backend/app/api/endpoints/chat.py` (conversation orchestrator).

Python dictionaries are modelled as insertion-ordered association lists,
`None`-able values as `Option`, raised exceptions as `Except.error`, and the
network as an explicit outcome parameter.  Stdlib calls (`str.split`,
`str.replace`, `json.loads`, `str()` / `repr()`) are embedded by small
executable models of the fragment the sources exercise.
-/

namespace AgentSwagger

/-! ### Generic Python-dict helpers -/

/-- Python dict assignment `d[k] = v`: overwrite in place when the key already
exists (keeping its position), else append at the end, preserving insertion
order. -/
def dictSet (d : List (String × α)) (k : String) (v : α) : List (String × α) :=
  match d with
  | [] => [(k, v)]
  | (k0, v0) :: t => if k0 = k then (k, v) :: t else (k0, v0) :: dictSet t k v

/-- Python dict lookup `d.get(k)`: `none` when the key is absent. -/
def dictGet (d : List (String × α)) (k : String) : Option α :=
  match d with
  | [] => none
  | (k0, v0) :: t => if k0 = k then some v0 else dictGet t k

/-- Python `a or b` on an optional string: the left operand wins unless it is
falsy (absent or empty). -/
def pyOrStr : Option String → Option String → Option String
  | some s, b => if s = "" then b else some s
  | none, b => b

/-! ### Data model read by `agent_generator._create_function_parameters`

One OpenAPI parameter dict: the generator reads `name`, `required`,
`schema.type`, `type` and `description`; a `none` field models an absent
key. -/

structure ParamInfo where
  name : Option String
  required : Option Bool
  schemaType : Option String
  typ : Option String
  description : Option String
deriving DecidableEq, Repr

/-- One flattened body property: the generator reads `type` and
`description`. -/
structure BodyProp where
  typ : Option String
  description : Option String
deriving DecidableEq, Repr

/-- `content[ct].get('schema', \x7b\x7d)`: a content entry without a schema is
modelled by an empty property list. -/
structure BodySchema where
  properties : List (String × BodyProp)
deriving DecidableEq, Repr

/-- `endpoint.request_body`: `required` defaults to `False`, `content` is a
content-type keyed dict. -/
structure RequestBody where
  required : Bool
  content : List (String × BodySchema)
deriving DecidableEq, Repr

/-- The slice of an `Endpoint` row read by the function-schema compiler.
`pathParams` / `queryParams` model `endpoint.parameters.get('path')` /
`.get('query')`; a falsy `request_body` (absent or empty dict) is `none`. -/
structure GenEndpoint where
  operation_id : Option String
  method : String
  path : String
  pathParams : Option (List ParamInfo)
  queryParams : Option (List ParamInfo)
  request_body : Option RequestBody
deriving DecidableEq, Repr

/-- One value of the compiled `properties` dict. -/
structure PropDef where
  typ : String
  description : String
  enumVals : Option (List String) := none
deriving DecidableEq, Repr

/-- The compiled parameter schema: `type` is always `"object"`, so only the
`properties` dict and the `required` list are carried. -/
structure FuncParams where
  properties : List (String × PropDef)
  required : List String
deriving DecidableEq, Repr

/-! ### `agent_generator._map_type` -/

/-- `_map_type`: OpenAPI types onto the reduced JSON-schema set, defaulting
everything unknown (including an absent type) to `string`. -/
def mapType : Option String → String
  | some "integer" => "number"
  | some "int" => "number"
  | some "long" => "number"
  | some "float" => "number"
  | some "double" => "number"
  | some "string" => "string"
  | some "boolean" => "boolean"
  | some "bool" => "boolean"
  | some "array" => "array"
  | some "object" => "object"
  | _ => "string"

/-! ### `agent_generator._create_function_parameters` -/

/-- Accumulated `properties` / `required` state of
`_create_function_parameters`. -/
structure ParamAcc where
  properties : List (String × PropDef)
  required : List String
deriving DecidableEq, Repr

/-- One iteration of the path-parameter loop: skipped when the `name` key is
absent or falsy; `required` defaults to `True` for path parameters. -/
def addPathParam (acc : ParamAcc) (p : ParamInfo) : ParamAcc :=
  match p.name with
  | none => acc
  | some n =>
    if n = "" then acc
    else
      { properties := dictSet acc.properties n
          { typ := mapType (pyOrStr p.schemaType p.typ)
            description := p.description.getD ("Path parameter: " ++ n) }
        required := if p.required.getD true then acc.required ++ [n] else acc.required }

/-- One iteration of the query-parameter loop: `required` defaults to
`False` for query parameters. -/
def addQueryParam (acc : ParamAcc) (p : ParamInfo) : ParamAcc :=
  match p.name with
  | none => acc
  | some n =>
    if n = "" then acc
    else
      { properties := dictSet acc.properties n
          { typ := mapType (pyOrStr p.schemaType p.typ)
            description := p.description.getD ("Query parameter: " ++ n) }
        required := if p.required.getD false then acc.required ++ [n] else acc.required }

/-- State after the path- and query-parameter loops. -/
def baseAcc (e : GenEndpoint) : ParamAcc :=
  (e.queryParams.getD []).foldl addQueryParam
    ((e.pathParams.getD []).foldl addPathParam { properties := [], required := [] })

/-- The `for content_type in ['application/json', 'application/xml']`
first-match scan over the request body's content dict. -/
def firstContent (rb : RequestBody) : Option BodySchema :=
  match dictGet rb.content "application/json" with
  | some s => some s
  | none => dictGet rb.content "application/xml"

/-- The flat top-level body properties the generator flattens into the
parameter schema (empty when there is no body, no matching content type, or
the chosen schema declares no properties). -/
def flatBodyProps (e : GenEndpoint) : List (String × BodyProp) :=
  match e.request_body with
  | none => []
  | some rb =>
    match firstContent rb with
    | some s => s.properties
    | none => []

/-- One iteration of the body-property flattening loop. -/
def addBodyProp (props : List (String × PropDef)) (kv : String × BodyProp) :
    List (String × PropDef) :=
  dictSet props kv.1
    { typ := mapType kv.2.typ
      description := kv.2.description.getD ("Body field: " ++ kv.1) }

/-- The generic `body` property injected when the body is required but no
flat properties were found. -/
def bodyPropDef : PropDef := { typ := "object", description := "Request body" }

/-- State after the request-body block: flatten the chosen content type's
properties, then inject a required generic `body` property when the body is
required, nothing was collected into `required`, and no property named
`body` exists yet. -/
def withBody (e : GenEndpoint) : ParamAcc :=
  let acc := baseAcc e
  match e.request_body with
  | none => acc
  | some rb =>
    let props := (flatBodyProps e).foldl addBodyProp acc.properties
    if rb.required ∧ acc.required = [] then
      if (dictGet props "body").isNone then
        { properties := dictSet props "body" bodyPropDef
          required := acc.required ++ ["body"] }
      else { properties := props, required := acc.required }
    else { properties := props, required := acc.required }

/-- The `_no_params` placeholder property added when nothing was collected. -/
def noParamsDef : PropDef :=
  { typ := "string"
    description := "This endpoint requires no parameters"
    enumVals := some ["none"] }

/-- `_create_function_parameters`: the full compiled parameter schema. -/
def createFunctionParameters (e : GenEndpoint) : FuncParams :=
  let acc := withBody e
  if acc.properties = [] then
    { properties := [("_no_params", noParamsDef)], required := acc.required }
  else
    { properties := acc.properties, required := acc.required }

/-! ### Models of the Python string methods the sources use

These are defined by structural recursion over the character list (rather
than through the byte-position-based core `String` functions) so that every
definition evaluates by kernel reduction. -/

/-- Python `str.strip(c)` for a single strip character. -/
def stripChar (c : Char) (s : String) : String :=
  String.mk (((s.data.dropWhile (· = c)).reverse.dropWhile (· = c)).reverse)

/-- Python `str.lower()` (ASCII fragment). -/
def pyLower (s : String) : String := String.mk (s.data.map Char.toLower)

/-- Python `str.upper()` (ASCII fragment). -/
def pyUpper (s : String) : String := String.mk (s.data.map Char.toUpper)

/-- `pre` is a prefix of `s`. -/
def listStarts : List Char → List Char → Bool
  | [], _ => true
  | _ :: _, [] => false
  | p :: ps, c :: cs => p = c && listStarts ps cs

/-- Python `s.startswith(pre)`. -/
def strStarts (s pre : String) : Bool := listStarts pre.data s.data

/-- Python `str.split(sep)` for a one-character separator: `""` splits to
`[""]`, adjacent separators produce empty segments. -/
def splitCharAux (sep : Char) : List Char → List Char → List String
  | [], acc => [String.mk acc.reverse]
  | c :: rest, acc =>
    if c = sep then String.mk acc.reverse :: splitCharAux sep rest []
    else splitCharAux sep rest (c :: acc)

/-- Python `str.split(sep)` for a one-character separator. -/
def pySplitChar (sep : Char) (s : String) : List String := splitCharAux sep s.data []

/-- Python `str.replace(pat, rep)` on character lists: leftmost
non-overlapping occurrences, fuel-bounded by the input length (a `0` fuel
is unreachable when the fuel starts at the length and the pattern is
non-empty; the sources never call `replace` with an empty pattern). -/
def replaceCharsAux (pat rep : List Char) : Nat → List Char → List Char
  | _, [] => []
  | 0, s => s
  | fuel + 1, c :: rest =>
    if listStarts pat (c :: rest) then
      rep ++ replaceCharsAux pat rep fuel (List.drop (pat.length - 1) rest)
    else c :: replaceCharsAux pat rep fuel rest

/-- Python `str.replace(pat, rep)` for a non-empty pattern. -/
def pyReplace (s pat rep : String) : String :=
  String.mk (replaceCharsAux pat.data rep.data s.data.length s.data)

/-! ### `agent_generator._create_function_name` -/

/-- A path segment of the shape `\x7bname\x7d`
(`part.startswith('\x7b') and part.endswith('\x7d')`). -/
def isPlaceholderSeg (s : String) : Bool :=
  (s.data.head? = some '{') && (s.data.getLast? = some '}')

/-- Python `part[1:-1]`. -/
def segInner (s : String) : String := String.mk ((s.data.drop 1).dropLast)

/-- The `clean_parts` accumulation: a placeholder segment contributes the two
parts `by` and its inner name, any other segment contributes itself. -/
def cleanParts : List String → List String
  | [] => []
  | p :: t => (if isPlaceholderSeg p then ["by", segInner p] else [p]) ++ cleanParts t

/-- Python `'_'.join(parts)`. -/
def joinUnderscore : List String → String
  | [] => ""
  | [p] => p
  | p :: q :: t => p ++ "_" ++ joinUnderscore (q :: t)

/-- The method-and-path derivation of `_create_function_name`, including the
final hyphen/space clean-up. -/
def deriveFunctionName (e : GenEndpoint) : String :=
  let parts := pySplitChar '/' (stripChar '/' e.path)
  let name := pyLower e.method ++ "_" ++ joinUnderscore (cleanParts parts)
  pyReplace (pyReplace name "-" "_") " " "_"

/-- `_create_function_name`: a truthy `operation_id` is returned verbatim,
else the name is derived from method and path. -/
def createFunctionName (e : GenEndpoint) : String :=
  match e.operation_id with
  | some oid => if oid = "" then deriveFunctionName e else oid
  | none => deriveFunctionName e

/-- The spec's wording of the fallback name derivation: lower-cased method,
an underscore, and the slash-separated path segments joined with underscores,
each `\x7bparam\x7d` placeholder replaced by the token `by_param`. -/
def specDerivedName (e : GenEndpoint) : String :=
  let parts := pySplitChar '/' (stripChar '/' e.path)
  pyLower e.method ++ "_" ++
    joinUnderscore (parts.map (fun p =>
      if isPlaceholderSeg p then "by_" ++ segInner p else p))

/-- The spec derivation amended with the clean-up the code performs last:
hyphens and spaces replaced by underscores. -/
def specDerivedNameAmended (e : GenEndpoint) : String :=
  pyReplace (pyReplace (specDerivedName e) "-" "_") " " "_"

/-! ### JSON values

`JVal` is the value universe of decoded argument payloads and response
bodies.  `jfloat` keeps a float literal at the syntax level (integer part,
fraction digits, decimal exponent); no float arithmetic is performed
anywhere in the sources being modelled. -/

inductive JVal where
  | null : JVal
  | jbool : Bool → JVal
  | jint : Int → JVal
  | jfloat : Int → List Char → Int → JVal
  | jstr : String → JVal
  | jarr : List JVal → JVal
  | jobj : List (String × JVal) → JVal

/-! ### Model of `json.loads`

A recursive-descent parser for the JSON fragment the sources exercise:
objects, arrays, strings with escapes, numbers, `true`/`false`/`null`.
(Python's `NaN`/`Infinity` extensions are outside the modelled fragment.)
Recursion is bounded by an explicit fuel that is always sufficient for the
input length. -/

/-- JSON insignificant whitespace. -/
def isJWs (c : Char) : Bool := c = ' ' || c = '\t' || c = '\n' || c = '\r'

/-- Value of one hex digit. -/
def hexVal (c : Char) : Option Nat :=
  if '0' ≤ c ∧ c ≤ '9' then some (c.toNat - 48)
  else if 'a' ≤ c ∧ c ≤ 'f' then some (c.toNat - 87)
  else if 'A' ≤ c ∧ c ≤ 'F' then some (c.toNat - 55)
  else none

/-- JSON string body (the input starts right after the opening quote):
returns the decoded characters and the rest after the closing quote. -/
def parseJString : List Char → Option (List Char × List Char)
  | [] => none
  | '"' :: r => some ([], r)
  | '\\' :: 'u' :: h1 :: h2 :: h3 :: h4 :: r =>
    match hexVal h1, hexVal h2, hexVal h3, hexVal h4, parseJString r with
    | some n1, some n2, some n3, some n4, some (s, rest) =>
      some (Char.ofNat (((n1 * 16 + n2) * 16 + n3) * 16 + n4) :: s, rest)
    | _, _, _, _, _ => none
  | '\\' :: e :: r =>
    match
      (match e with
       | '"' => some '"'
       | '\\' => some '\\'
       | '/' => some '/'
       | 'b' => some (Char.ofNat 8)
       | 'f' => some (Char.ofNat 12)
       | 'n' => some '\n'
       | 'r' => some '\r'
       | 't' => some '\t'
       | _ => none),
      parseJString r with
    | some ec, some (s, rest) => some (ec :: s, rest)
    | _, _ => none
  | c :: r =>
    if c.toNat < 32 then none
    else
      match parseJString r with
      | some (s, rest) => some (c :: s, rest)
      | none => none

/-- Longest digit span. -/
def spanDigits : List Char → List Char × List Char
  | [] => ([], [])
  | c :: r =>
    if c.isDigit then
      let (d, rest) := spanDigits r
      (c :: d, rest)
    else ([], c :: r)

/-- Numeric value of a digit list. -/
def digitsVal (l : List Char) : Nat :=
  l.foldl (fun a c => a * 10 + (c.toNat - 48)) 0

/-- Exponent part after `e`/`E`. -/
def parseExp (cs : List Char) : Option (Int × List Char) :=
  let (sign, cs1) : Int × List Char :=
    match cs with
    | '+' :: r => (1, r)
    | '-' :: r => (-1, r)
    | _ => (1, cs)
  let (ds, cs2) := spanDigits cs1
  if ds.isEmpty then none else some (sign * (digitsVal ds : Int), cs2)

/-- JSON number (the input starts at the first character of the literal). -/
def parseNumber (cs : List Char) : Option (JVal × List Char) :=
  let (neg, cs1) : Bool × List Char :=
    match cs with
    | '-' :: r => (true, r)
    | _ => (false, cs)
  let (ds, cs2) := spanDigits cs1
  if ds.isEmpty then none
  else if 1 < ds.length ∧ ds.head? = some '0' then none
  else
    let intPart : Int := if neg then -(digitsVal ds : Int) else (digitsVal ds : Int)
    match cs2 with
    | '.' :: r =>
      let (fs, cs3) := spanDigits r
      if fs.isEmpty then none
      else
        (match cs3 with
         | 'e' :: r2 => (parseExp r2).map (fun p => (JVal.jfloat intPart fs p.1, p.2))
         | 'E' :: r2 => (parseExp r2).map (fun p => (JVal.jfloat intPart fs p.1, p.2))
         | _ => some (JVal.jfloat intPart fs 0, cs3))
    | 'e' :: r2 => (parseExp r2).map (fun p => (JVal.jfloat intPart [] p.1, p.2))
    | 'E' :: r2 => (parseExp r2).map (fun p => (JVal.jfloat intPart [] p.1, p.2))
    | _ => some (JVal.jint intPart, cs2)

mutual

/-- One JSON value, after skipping leading whitespace. -/
def parseVal : Nat → List Char → Option (JVal × List Char)
  | 0, _ => none
  | fuel + 1, cs =>
    match cs.dropWhile isJWs with
    | '{' :: r => parseMembers fuel r
    | '[' :: r => parseItems fuel r
    | '"' :: r =>
      match parseJString r with
      | some (s, rest) => some (JVal.jstr (String.mk s), rest)
      | none => none
    | 't' :: 'r' :: 'u' :: 'e' :: r => some (JVal.jbool true, r)
    | 'f' :: 'a' :: 'l' :: 's' :: 'e' :: r => some (JVal.jbool false, r)
    | 'n' :: 'u' :: 'l' :: 'l' :: r => some (JVal.null, r)
    | c :: r => if c = '-' ∨ c.isDigit then parseNumber (c :: r) else none
    | [] => none

/-- Object members, the input starting right after `\x7b`. -/
def parseMembers : Nat → List Char → Option (JVal × List Char)
  | 0, _ => none
  | fuel + 1, cs =>
    match cs.dropWhile isJWs with
    | [] => none
    | c :: r =>
      if c = '}' then some (JVal.jobj [], r)
      else if c = '"' then parseMembersRest fuel r []
      else none

/-- Remaining object members, the input starting right after a key's opening
quote; a duplicate key overwrites the earlier value in place, as a Python
dict does. -/
def parseMembersRest : Nat → List Char → List (String × JVal) →
    Option (JVal × List Char)
  | 0, _, _ => none
  | fuel + 1, cs, acc =>
    match parseJString cs with
    | none => none
    | some (k, r1) =>
      match r1.dropWhile isJWs with
      | ':' :: r2 =>
        match parseVal fuel r2 with
        | none => none
        | some (v, r3) =>
          match r3.dropWhile isJWs with
          | ',' :: r4 =>
            (match r4.dropWhile isJWs with
             | '"' :: r5 => parseMembersRest fuel r5 (dictSet acc (String.mk k) v)
             | _ => none)
          | '}' :: r4 => some (JVal.jobj (dictSet acc (String.mk k) v), r4)
          | _ => none
      | _ => none

/-- Array items, the input starting right after `[`. -/
def parseItems : Nat → List Char → Option (JVal × List Char)
  | 0, _ => none
  | fuel + 1, cs =>
    match cs.dropWhile isJWs with
    | ']' :: r => some (JVal.jarr [], r)
    | _ => parseItemsRest fuel cs []

/-- Remaining array items, the input starting at an item. -/
def parseItemsRest : Nat → List Char → List JVal → Option (JVal × List Char)
  | 0, _, _ => none
  | fuel + 1, cs, acc =>
    match parseVal fuel cs with
    | none => none
    | some (v, r1) =>
      match r1.dropWhile isJWs with
      | ',' :: r2 => parseItemsRest fuel r2 (acc ++ [v])
      | ']' :: r2 => some (JVal.jarr (acc ++ [v]), r2)
      | _ => none

end

/-- `json.loads`: parse one JSON document and require only whitespace after
it.  The fuel `3 * |input| + 3` dominates the recursion depth of the
parser. -/
def jsonLoads (cs : List Char) : Option JVal :=
  match parseVal (3 * cs.length + 3) cs with
  | some (v, rest) => if (rest.dropWhile isJWs).isEmpty then some v else none
  | none => none

/-! ### Model of Python `str()` / `repr()` on decoded JSON values -/

/-- The apostrophe character. -/
def aposC : Char := Char.ofNat 39

/-- Python `repr` of a string, modelled for printable-ASCII content: the
delimiter is a single quote unless the string contains one and no double
quote; backslashes and the delimiter are escaped. -/
def reprStrChars (s : String) : List Char :=
  let q : Char := if s.data.contains aposC && !(s.data.contains '"') then '"' else aposC
  q :: s.data.foldr
    (fun c acc => if c = '\\' ∨ c = q then '\\' :: c :: acc else c :: acc) [q]

mutual

/-- Python `repr` of a decoded JSON value (`None`/`True`/`False`, decimal
integers, quoted strings, bracketed containers with `, ` separators). -/
def pyReprChars : JVal → List Char
  | .null => ['N', 'o', 'n', 'e']
  | .jbool true => ['T', 'r', 'u', 'e']
  | .jbool false => ['F', 'a', 'l', 's', 'e']
  | .jint n => (toString n).data
  | .jfloat i f e =>
    (toString i).data ++ '.' :: f ++ (if e = 0 then [] else 'e' :: (toString e).data)
  | .jstr s => reprStrChars s
  | .jarr l => '[' :: (pyReprList l ++ [']'])
  | .jobj l => '{' :: (pyReprObj l ++ ['}'])

/-- `, `-separated reprs of array elements. -/
def pyReprList : List JVal → List Char
  | [] => []
  | [v] => pyReprChars v
  | v :: v2 :: t => pyReprChars v ++ (',' :: ' ' :: pyReprList (v2 :: t))

/-- `, `-separated `repr(key): repr(value)` pairs of a dict. -/
def pyReprObj : List (String × JVal) → List Char
  | [] => []
  | [(k, v)] => reprStrChars k ++ (':' :: ' ' :: pyReprChars v)
  | (k, v) :: p :: t =>
    reprStrChars k ++ (':' :: ' ' :: (pyReprChars v ++ (',' :: ' ' :: pyReprObj (p :: t))))

end

/-- Python `str()` of a decoded JSON value: identity on strings, `repr`
otherwise. -/
def pyStrChars : JVal → List Char
  | .jstr s => s.data
  | v => pyReprChars v

/-- `str()` as a `String`. -/
def pyStr (v : JVal) : String := String.mk (pyStrChars v)

/-! ### Data model read by `api_executor` -/

/-- Lookup in an id-keyed table: `db.query(T).filter(T.id == k).first()`. -/
def idGet (d : List (Int × α)) (k : Int) : Option α :=
  match d with
  | [] => none
  | (k0, v) :: t => if k0 = k then some v else idGet t k

/-- The slice of an `Endpoint` row read by the execution engine.  Parameter
dicts are read only for their `name` key, so each is an `Option String`. -/
structure ExecEndpoint where
  swagger_doc_id : Int
  method : String
  path : String
  pathParams : List (Option String)
  queryParams : List (Option String)
  headerParams : List (Option String)
  hasRequestBody : Bool

/-- The slice of a `SwaggerDoc` row read by the engine. -/
structure SwaggerDocM where
  base_url : Option String

/-- The `_metadata` entry of a compiled function definition. -/
structure FuncMeta where
  endpoint_id : Option Int

/-- One entry of `agent.available_functions` as the engine reads it:
`func.get("_metadata", \x7b\x7d)` with no `endpoint_id` is `metadata := none`. -/
structure AgentFunc where
  name : String
  metadata : Option FuncMeta

/-- The slice of an `Agent` row read by the engine. -/
structure AgentM where
  available_functions : List AgentFunc

/-- The database tables the engine queries. -/
structure DbM where
  endpoints : List (Int × ExecEndpoint)
  swaggerDocs : List (Int × SwaggerDocM)

/-- Decoded response payload: parsed JSON when `response.json()` succeeded,
else the raw text. -/
inductive RData where
  | jsonData : JVal → RData
  | textData : String → RData

/-- Outcome of the one `httpx` dispatch: a received response (status, the
result of `response.json()`, `response.text`, the post-redirect
`response.url`), or the raised transport exception. -/
inductive NetOutcome where
  | response (status : Nat) (jsonBody : Option JVal) (text : String) (finalUrl : String)
  | timeout
  | connectError
  | failure (msg : String)

/-- The Execution Result dict built by `_execute_http_request`. -/
structure ExecResult where
  success : Bool
  status_code : Nat
  url : String
  method : String
  data : Option RData
  error : Option String

/-! ### `api_executor._execute_http_request` -/

/-- Python `str.rstrip('/')`. -/
def rstripSlash (s : String) : String :=
  String.mk (s.data.reverse.dropWhile (· = '/')).reverse

/-- Python `str.lstrip('/')`. -/
def lstripSlash (s : String) : String :=
  String.mk (s.data.dropWhile (· = '/'))

/-- Modelled fragment of `urllib.parse.urljoin` for the call shape the
engine uses (base ending in a slash, relative part without a leading slash):
a relative part that is itself an absolute URL replaces the base, otherwise
the join is concatenation. -/
def pyUrljoin (base rel : String) : String :=
  if strStarts rel "http://" ∨ strStarts rel "https://" then rel else base ++ rel

/-- The path-parameter substitution loop: returns the substituted path and
the `path_params` dict of consumed arguments.  A parameter is consumed when
its `name` key is truthy and present in `arguments`. -/
def substPathParams (path : String) (params : List (Option String))
    (args : List (String × JVal)) : String × List (String × JVal) :=
  params.foldl
    (fun acc p =>
      match p with
      | none => acc
      | some n =>
        if n = "" then acc
        else
          match dictGet args n with
          | some v =>
            (pyReplace acc.1 ("\x7b" ++ n ++ "\x7d") (pyStr v), dictSet acc.2 n v)
          | none => acc)
    (path, [])

/-- The query-parameter collection loop. -/
def collectParams (params : List (Option String)) (args : List (String × JVal)) :
    List (String × JVal) :=
  params.foldl
    (fun acc p =>
      match p with
      | none => acc
      | some n =>
        if n = "" then acc
        else
          match dictGet args n with
          | some v => dictSet acc n v
          | none => acc)
    []

/-- The request headers: fixed headers plus header parameters present in
`arguments`, stringified. -/
def buildHeaders (params : List (Option String)) (args : List (String × JVal)) :
    List (String × String) :=
  params.foldl
    (fun acc p =>
      match p with
      | none => acc
      | some n =>
        if n = "" then acc
        else
          match dictGet args n with
          | some v => dictSet acc n (pyStr v)
          | none => acc)
    [("Content-Type", "application/json"), ("User-Agent", "AI-Agent-Platform/1.0")]

/-- The request body: for body-accepting methods, a literal `body` argument
verbatim, else the arguments not consumed by path/query substitution and not
underscore-prefixed. -/
def buildBody (ep : ExecEndpoint) (args : List (String × JVal))
    (used : List String) : Option JVal :=
  if ep.hasRequestBody ∧ pyUpper ep.method ∈ (["POST", "PUT", "PATCH"] : List String) then
    match dictGet args "body" with
    | some v => some v
    | none =>
      some (JVal.jobj (args.filter (fun kv => kv.1 ∉ used ∧ ¬ strStarts kv.1 "_")))
  else none

/-- The full URL: base URL (when truthy) joined with the substituted path
after slash normalization, else the bare path. -/
def buildUrl (ep : ExecEndpoint) (doc : SwaggerDocM) (args : List (String × JVal)) :
    String :=
  let path1 := (substPathParams ep.path ep.pathParams args).1
  let base := doc.base_url.getD ""
  if base = "" then path1 else pyUrljoin (rstripSlash base ++ "/") (lstripSlash path1)

/-- The HTTP methods with a dispatch branch. -/
def supportedMethods : List String :=
  ["GET", "POST", "PUT", "PATCH", "DELETE", "HEAD", "OPTIONS"]

/-- `_execute_http_request`: build the request, dispatch, and encode every
outcome (including the in-`try` unsupported-method `ValueError`, caught by
the generic handler) in an `ExecResult`. -/
def execHttpRequest (ep : ExecEndpoint) (doc : SwaggerDocM)
    (args : List (String × JVal)) (net : NetOutcome) : ExecResult :=
  let method := pyUpper ep.method
  let url := buildUrl ep doc args
  if method ∉ supportedMethods then
    { success := false, status_code := 0, url := url, method := method
      data := none
      error := some ("Execution error: Unsupported HTTP method: " ++ method) }
  else
    match net with
    | .response st j txt fUrl =>
      { success := decide (st < 400), status_code := st, url := fUrl, method := method
        data := some (match j with | some v => .jsonData v | none => .textData txt)
        error :=
          if 400 ≤ st then
            some ("HTTP " ++ toString st ++ ": " ++ String.mk (txt.data.take 200))
          else none }
    | .timeout =>
      { success := false, status_code := 408, url := url, method := method
        data := none
        error := some "Request timeout - the API took too long to respond" }
    | .connectError =>
      { success := false, status_code := 0, url := url, method := method
        data := none, error := some ("Could not connect to " ++ url) }
    | .failure m =>
      { success := false, status_code := 0, url := url, method := method
        data := none, error := some ("Execution error: " ++ m) }

/-! ### `api_executor.execute_function_call` -/

/-- The linear scan for the named function in `agent.available_functions`. -/
def findFunction (fs : List AgentFunc) (n : String) : Option AgentFunc :=
  fs.find? (fun f => f.name == n)

/-- `execute_function_call`: resolve the function, its endpoint metadata, the
endpoint row and the swagger-doc row, raising `ValueError` (`Except.error`)
when any step fails, then delegate to the HTTP request.  A falsy
`endpoint_id` (absent or `0`) counts as missing metadata. -/
def executeFunctionCall (db : DbM) (agent : AgentM) (function_name : String)
    (args : List (String × JVal)) (net : NetOutcome) : Except String ExecResult :=
  match findFunction agent.available_functions function_name with
  | none =>
    .error ("Function \x27" ++ function_name ++
      "\x27 not found in agent\x27s available functions")
  | some f =>
    match f.metadata.bind (·.endpoint_id) with
    | none => .error ("No endpoint metadata found for function \x27" ++ function_name ++ "\x27")
    | some eid =>
      if eid = 0 then
        .error ("No endpoint metadata found for function \x27" ++ function_name ++ "\x27")
      else
        match idGet db.endpoints eid with
        | none => .error ("Endpoint " ++ toString eid ++ " not found")
        | some ep =>
          match idGet db.swaggerDocs ep.swagger_doc_id with
          | none => .error ("Swagger doc " ++ toString ep.swagger_doc_id ++ " not found")
          | some doc => .ok (execHttpRequest ep doc args net)

/-! ### `api_executor.format_result_for_llm` -/

/-- JSON string escaping as `json.dumps` performs it (modelled for printable
content; `ensure_ascii=False` passes non-ASCII through). -/
def jsonEscape (s : List Char) : List Char :=
  s.foldr
    (fun c acc =>
      if c = '"' then '\\' :: '"' :: acc
      else if c = '\\' then '\\' :: '\\' :: acc
      else if c = '\n' then '\\' :: 'n' :: acc
      else if c = '\r' then '\\' :: 'r' :: acc
      else if c = '\t' then '\\' :: 't' :: acc
      else c :: acc)
    []

/-- `indent` spaces. -/
def indentChars (n : Nat) : List Char := List.replicate n ' '

mutual

/-- `json.dumps(v, indent=2, ensure_ascii=False)` at a given indent level. -/
def jsonDumpsVal (ind : Nat) : JVal → List Char
  | .null => ['n', 'u', 'l', 'l']
  | .jbool true => ['t', 'r', 'u', 'e']
  | .jbool false => ['f', 'a', 'l', 's', 'e']
  | .jint n => (toString n).data
  | .jfloat i f e =>
    (toString i).data ++ '.' :: f ++ (if e = 0 then [] else 'e' :: (toString e).data)
  | .jstr s => '"' :: jsonEscape s.data ++ ['"']
  | .jarr [] => ['[', ']']
  | .jarr (v :: t) =>
    '[' :: '\n' :: jsonDumpsItems (ind + 2) (v :: t) ++ '\n' :: indentChars ind ++ [']']
  | .jobj [] => ['{', '}']
  | .jobj (kv :: t) =>
    '{' :: '\n' :: jsonDumpsMembers (ind + 2) (kv :: t) ++ '\n' :: indentChars ind ++ ['}']

/-- Array items, one per line. -/
def jsonDumpsItems (ind : Nat) : List JVal → List Char
  | [] => []
  | [v] => indentChars ind ++ jsonDumpsVal ind v
  | v :: v2 :: t =>
    indentChars ind ++ jsonDumpsVal ind v ++ ',' :: '\n' :: jsonDumpsItems ind (v2 :: t)

/-- Object members, one per line. -/
def jsonDumpsMembers (ind : Nat) : List (String × JVal) → List Char
  | [] => []
  | [(k, v)] =>
    indentChars ind ++ '"' :: jsonEscape k.data ++ '"' :: ':' :: ' ' :: jsonDumpsVal ind v
  | (k, v) :: p :: t =>
    indentChars ind ++ '"' :: jsonEscape k.data ++ '"' :: ':' :: ' ' :: jsonDumpsVal ind v ++
      ',' :: '\n' :: jsonDumpsMembers ind (p :: t)

end

/-- `format_result_for_llm`: pretty-print structured data of a successful
result (absent data defaults to the empty dict), stringify scalar data, and
render failures as `Error status: error`. -/
def formatResultForLLM (r : ExecResult) : String :=
  if r.success then
    match r.data with
    | some (.jsonData v) =>
      match v with
      | .jobj _ => String.mk (jsonDumpsVal 0 v)
      | .jarr _ => String.mk (jsonDumpsVal 0 v)
      | _ => pyStr v
    | some (.textData s) => s
    | none => String.mk (jsonDumpsVal 0 (JVal.jobj []))
  else
    "Error " ++ toString r.status_code ++ ": " ++ r.error.getD "Unknown error"

/-! ### Conversation orchestrator (`chat.py chat_with_agent`) -/

/-- A backend function-invocation request: name plus the JSON-encoded
argument string. -/
structure FCall where
  name : String
  arguments : String
deriving DecidableEq, Repr

/-- One conversation message as `chat_with_agent` appends them. -/
structure Message where
  role : String
  content : Option String
  function_call : Option FCall := none
  name : Option String := none
deriving DecidableEq, Repr

/-- The defensive argument parse of the orchestrator: `json.loads` of the
payload, degrading to the empty dict on a decode error.  (The backends'
argument payloads are JSON objects; a non-object document is outside the
modelled fragment.) -/
def parseArgsDict (s : String) : List (String × JVal) :=
  match jsonLoads s.data with
  | some (.jobj l) => l
  | some _ => []
  | none => []

/-- One entry of the `function_calls_made` tracking list (wall-clock
`execution_time` is not modelled). -/
structure FunctionCallRecord where
  function_name : String
  arguments : List (String × JVal)
  success : Bool
  error : Option String

/-- One entry of the `api_calls_made` tracking list. -/
structure ApiCallRecord where
  method : String
  url : String
  status_code : Nat
  success : Bool

/-- What one loop iteration produces besides the next backend call. -/
structure InvocationOutcome where
  resultStr : String
  record : FunctionCallRecord
  apiRecord : Option ApiCallRecord

/-- The `try/except` around `api_executor.execute_function_call` in one loop
iteration: a returned result is formatted for the backend and tracked, a
raised exception becomes an `Error executing function: ...` result string. -/
def runFunctionCall (db : DbM) (agent : AgentM) (fc : FCall) (net : NetOutcome) :
    InvocationOutcome :=
  let args := parseArgsDict fc.arguments
  match executeFunctionCall db agent fc.name args net with
  | .ok r =>
    { resultStr := formatResultForLLM r
      record :=
        { function_name := fc.name, arguments := args
          success := r.success, error := none }
      apiRecord := some
        { method := r.method, url := r.url
          status_code := r.status_code, success := r.success } }
  | .error e =>
    { resultStr := "Error executing function: " ++ e
      record :=
        { function_name := fc.name, arguments := args
          success := false, error := some e }
      apiRecord := none }

/-- The two messages appended to the conversation after one invocation: the
assistant turn carrying the raw invocation and the function-result turn
carrying the formatted result. -/
def appendedMessages (db : DbM) (agent : AgentM) (fc : FCall) (net : NetOutcome) :
    List Message :=
  [{ role := "assistant", content := none, function_call := some fc },
   { role := "function", content := some (runFunctionCall db agent fc net).resultStr
     name := some fc.name }]

/-- The neutral backend message the orchestrator inspects
(`llm_response["choices"][0]["message"]`). -/
structure LLMMsg where
  content : Option String
  function_call : Option FCall
deriving DecidableEq, Repr

/-- The iteration ceiling (`max_iterations = 10`). -/
def maxIterations : Nat := 10

/-- The `while assistant_message.get("function_call") and iteration <
max_iterations` loop, with the backend abstracted as the stream of its
responses (`backend n` is the message of the n-th completion).  The fuel is
`maxIterations - iteration`, so `iteration < maxIterations` is exactly
`fuel > 0`; the pair returned is the message in hand at exit and the final
iteration counter. -/
def chatLoopAux (backend : Nat → LLMMsg) : Nat → LLMMsg → Nat → LLMMsg × Nat
  | 0, msg, iter => (msg, iter)
  | fuel + 1, msg, iter =>
    if msg.function_call.isSome then
      chatLoopAux backend fuel (backend (iter + 1)) (iter + 1)
    else (msg, iter)

/-- The full loop from the first completion. -/
def runChatLoop (backend : Nat → LLMMsg) : LLMMsg × Nat :=
  chatLoopAux backend maxIterations (backend 0) 0

/-- The fixed fallback returned when the loop ends without usable text. -/
def fallbackMessage : String :=
  "I completed the action but couldn\x27t generate a response."

/-- `final_content`: the exit message's content when truthy, else the
fallback. -/
def finalContent (m : LLMMsg) : String :=
  match m.content with
  | some c => if c = "" then fallbackMessage else c
  | none => fallbackMessage

/-- The text the chat turn returns for a given backend behaviour. -/
def chatFinalText (backend : Nat → LLMMsg) : String :=
  finalContent (runChatLoop backend).1

/-! ### Provider adapters (`llm_service.py`) -/

/-- A history entry as the adapters read it (`role`/`content` dict). -/
structure AdapterMsg where
  role : String
  content : String
deriving DecidableEq, Repr

/-- A compiled function as the adapters read it. -/
structure FuncDecl where
  name : String
  description : String
deriving DecidableEq, Repr

/-- The `functions_description` text the Ollama adapter builds. -/
def functionsDescription (fns : List FuncDecl) : String :=
  "\n\nAvailable functions:\n" ++
    String.join (fns.map (fun f => "\n- " ++ f.name ++ ": " ++ f.description))

/-- The OpenAI request payload: the history is embedded as-is, the function
list stripped of metadata. -/
structure OpenAIPayload where
  messages : List AdapterMsg
  functions : Option (List FuncDecl)
deriving DecidableEq, Repr

/-- `_openai_chat_completion` payload construction: reads the history, never
writes it. -/
def openaiPayload (msgs : List AdapterMsg) (fns : List FuncDecl) : OpenAIPayload :=
  { messages := msgs, functions := if fns = [] then none else some fns }

/-- The history after the OpenAI adapter ran. -/
def openaiMessagesAfter (msgs : List AdapterMsg) (fns : List FuncDecl) :
    List AdapterMsg :=
  (openaiPayload msgs fns).messages

/-- The Anthropic request payload: the system message extracted into its own
field, the rest copied into a fresh list. -/
structure AnthropicPayload where
  system : Option String
  messages : List AdapterMsg
  tools : Option (List FuncDecl)
deriving DecidableEq, Repr

/-- `_anthropic_chat_completion` payload construction: builds a new
`anthropic_messages` list, never writes the history. -/
def anthropicPayload (msgs : List AdapterMsg) (fns : List FuncDecl) :
    AnthropicPayload :=
  let st := msgs.foldl
    (fun (acc : Option String × List AdapterMsg) m =>
      if m.role = "system" then (some m.content, acc.2)
      else (acc.1, acc.2 ++ [{ role := m.role, content := m.content }]))
    (none, [])
  { system := st.1, messages := st.2
    tools := if fns = [] then none else some fns }

/-- The history after the Anthropic adapter ran. -/
def anthropicMessagesAfter (msgs : List AdapterMsg) (_fns : List FuncDecl) :
    List AdapterMsg :=
  msgs

/-- The history after `_ollama_chat_completion` ran: with functions present,
the description is appended in place to a leading system message's content,
else a fresh system message is inserted at the front. -/
def ollamaMessagesAfter (msgs : List AdapterMsg) (fns : List FuncDecl) :
    List AdapterMsg :=
  if fns = [] then msgs
  else
    match msgs with
    | m :: rest =>
      if m.role = "system" then
        { role := m.role, content := m.content ++ functionsDescription fns } :: rest
      else
        { role := "system"
          content := "You are a helpful assistant." ++ functionsDescription fns } ::
          m :: rest
    | [] =>
      [{ role := "system"
         content := "You are a helpful assistant." ++ functionsDescription fns }]

/-! ### `llm_service._convert_anthropic_to_openai_format` -/

/-- One content block of an Anthropic response. -/
inductive ABlock where
  | textBlock (text : String)
  | toolUse (id : String) (name : String) (input : List (String × JVal))
  | other

/-- The concatenated text of the text blocks. -/
def anthropicTextContent (blocks : List ABlock) : String :=
  blocks.foldl
    (fun acc b =>
      match b with
      | .textBlock t => acc ++ t
      | _ => acc)
    ""

/-- The tool-use blocks mapped to function calls, the argument payload
serialized with `str(block.get("input", \x7b\x7d))`. -/
def anthropicToolCalls (blocks : List ABlock) : List FCall :=
  blocks.foldl
    (fun acc b =>
      match b with
      | .toolUse _ n input => acc ++ [{ name := n, arguments := pyStr (.jobj input) }]
      | _ => acc)
    []

/-- The neutral message produced from an Anthropic response's content
blocks: falsy text becomes `none`, the first tool call (if any) becomes the
`function_call`. -/
def convertAnthropicMessage (blocks : List ABlock) : LLMMsg :=
  let text := anthropicTextContent blocks
  { content := if text = "" then none else some text
    function_call := (anthropicToolCalls blocks).head? }

/-! ### Concrete instances used as counterexamples and witnesses -/

/-- A POST endpoint with one (implicitly required) path parameter and a
required body whose JSON content declares no flat properties. -/
def eC1 : GenEndpoint :=
  { operation_id := none, method := "POST", path := "/items/\x7bid\x7d"
    pathParams := some [{ name := some "id", required := none
                          schemaType := some "string", typ := none, description := none }]
    queryParams := none
    request_body := some { required := true
                           content := [("application/json", { properties := [] })] } }

/-- A POST endpoint with one optional query parameter and a required body
with no content entry. -/
def eC1w : GenEndpoint :=
  { operation_id := none, method := "POST", path := "/items"
    pathParams := none
    queryParams := some [{ name := some "verbose", required := some false
                           schemaType := some "boolean", typ := none, description := none }]
    request_body := some { required := true, content := [] } }

/-- An endpoint without `operationId` whose path contains a hyphen. -/
def eC7 : GenEndpoint :=
  { operation_id := none, method := "GET", path := "/user-info"
    pathParams := none, queryParams := none, request_body := none }

/-- An endpoint without `operationId` with a placeholder segment. -/
def eC7w : GenEndpoint :=
  { operation_id := none, method := "GET", path := "/users/\x7bid\x7d/posts"
    pathParams := none, queryParams := none, request_body := none }

/-- An endpoint contributing no parameters at all. -/
def eC8 : GenEndpoint :=
  { operation_id := none, method := "GET", path := "/ping"
    pathParams := none, queryParams := none, request_body := none }

/-- A one-message history holding only the system prompt. -/
def msgsC3 : List AdapterMsg := [{ role := "system", content := "S" }]

/-- A one-function compiled set. -/
def fnsC3 : List FuncDecl := [{ name := "f", description := "d" }]

/-- A backend behaviour that requests a function on every completion and
never produces text. -/
def backendC4 : Nat → LLMMsg := fun _ =>
  { content := none, function_call := some { name := "f", arguments := "\x7b\x7d" } }

/-- A GET endpoint with one path parameter, as stored for the executor. -/
def epC : ExecEndpoint :=
  { swagger_doc_id := 1, method := "get", path := "/pets/\x7bid\x7d"
    pathParams := [some "id"], queryParams := [], headerParams := []
    hasRequestBody := false }

/-- The same endpoint with an HTTP method no dispatch branch supports. -/
def epTrace : ExecEndpoint :=
  { swagger_doc_id := 1, method := "TRACE", path := "/pets/\x7bid\x7d"
    pathParams := [some "id"], queryParams := [], headerParams := []
    hasRequestBody := false }

/-- A swagger doc with a configured base URL. -/
def docC : SwaggerDocM := { base_url := some "https://api.example.com" }

/-- A database holding that endpoint and doc. -/
def dbC : DbM := { endpoints := [(7, epC)], swaggerDocs := [(1, docC)] }

/-- An agent exposing one compiled function bound to endpoint 7. -/
def agentC : AgentM :=
  { available_functions := [{ name := "get_pet", metadata := some { endpoint_id := some 7 } }] }

/-- An empty agent and database. -/
def agentEmpty : AgentM := { available_functions := [] }

/-- An empty database. -/
def dbEmpty : DbM := { endpoints := [], swaggerDocs := [] }

/-- An invocation of the compiled pet function. -/
def fcC5 : FCall := { name := "get_pet", arguments := "\x7b\"id\": 3\x7d" }

/-- An invocation of a function no agent exposes, with a malformed payload. -/
def fcBad : FCall := { name := "foo", arguments := "not json" }

/-- The network outcome of a 404 with a structured body. -/
def netC5 : NetOutcome :=
  .response 404 (some (.jobj [("detail", .jstr "Not found")]))
    "\x7b\"detail\": \"Not found\"\x7d" "https://api.example.com/pets/3"

/-- A non-empty tool-use input whose single key contains an apostrophe: its
Python `str()` happens to be valid JSON. -/
def inpC9 : List (String × JVal) := [("it\x27s", JVal.jint 1)]

/-! ## Theorems -/

/-! ### Helper lemmas on dict operations -/

theorem dictSet_ne_nil (d : List (String × α)) (k : String) (v : α) :
    dictSet d k v ≠ [] := by
  cases d with
  | nil => simp [dictSet]
  | cons h t =>
    simp only [dictSet]
    split <;> simp

theorem dictGet_dictSet_self (d : List (String × α)) (k : String) (v : α) :
    dictGet (dictSet d k v) k = some v := by
  induction d with
  | nil => simp [dictSet, dictGet]
  | cons h t ih =>
    obtain ⟨k0, v0⟩ := h
    by_cases hk : k0 = k
    · simp [dictSet, dictGet, hk]
    · simp [dictSet, dictGet, hk, ih]

/-! ### Helper lemmas on the name derivation -/

theorem strAppend_assoc (a b c : String) : a ++ b ++ c = a ++ (b ++ c) := by
  apply String.ext
  simp [String.data_append]

theorem cleanParts_cons (p : String) (t : List String) :
    cleanParts (p :: t) =
      (if isPlaceholderSeg p then ["by", segInner p] else [p]) ++ cleanParts t := rfl

theorem joinUnderscore_cons_cons (a b : String) (l : List String) :
    joinUnderscore (a :: b :: l) = a ++ "_" ++ joinUnderscore (b :: l) := rfl

theorem joinUnderscore_single (a : String) : joinUnderscore [a] = a := rfl

theorem by_underscore_append (x j : String) :
    "by" ++ "_" ++ (x ++ "_" ++ j) = ("by_" ++ x) ++ "_" ++ j := by
  have h : ("by" : String) ++ "_" = "by_" := rfl
  rw [← h]
  simp only [strAppend_assoc]

theorem cleanParts_ne_nil (l : List String) (h : l ≠ []) : cleanParts l ≠ [] := by
  cases l with
  | nil => exact absurd rfl h
  | cons p t =>
    rw [cleanParts_cons]
    split <;> simp

/-- The two-part `by`/`inner` expansion of a placeholder joins to the same
string as the spec's single `by_inner` segment. -/
theorem joinUnderscore_cleanParts (l : List String) :
    joinUnderscore (cleanParts l) =
      joinUnderscore (l.map (fun p =>
        if isPlaceholderSeg p then "by_" ++ segInner p else p)) := by
  induction l with
  | nil => rfl
  | cons p t ih =>
    rw [cleanParts_cons, List.map_cons]
    cases t with
    | nil =>
      by_cases hp : isPlaceholderSeg p
      · rw [if_pos hp, if_pos hp]
        show joinUnderscore ["by", segInner p] = joinUnderscore [_]
        rw [joinUnderscore_cons_cons, joinUnderscore_single, joinUnderscore_single,
          strAppend_assoc]
        rfl
      · rw [if_neg hp, if_neg hp]
        rfl
    | cons q r =>
      have hne : cleanParts (q :: r) ≠ [] := cleanParts_ne_nil _ (by simp)
      obtain ⟨c, cs, hc⟩ : ∃ c cs, cleanParts (q :: r) = c :: cs := by
        cases hcc : cleanParts (q :: r) with
        | nil => exact absurd hcc hne
        | cons c cs => exact ⟨c, cs, rfl⟩
      have ih' : joinUnderscore (c :: cs) =
          joinUnderscore (List.map (fun p =>
            if isPlaceholderSeg p then "by_" ++ segInner p else p) (q :: r)) := by
        rw [← hc]; exact ih
      rw [List.map_cons]
      by_cases hp : isPlaceholderSeg p
      · rw [if_pos hp, if_pos hp]
        show joinUnderscore (["by", segInner p] ++ cleanParts (q :: r)) = _
        rw [hc]
        show joinUnderscore ("by" :: segInner p :: c :: cs) = _
        rw [joinUnderscore_cons_cons, joinUnderscore_cons_cons, ih',
          joinUnderscore_cons_cons, by_underscore_append, List.map_cons]
      · rw [if_neg hp, if_neg hp]
        show joinUnderscore ([p] ++ cleanParts (q :: r)) = _
        rw [hc]
        show joinUnderscore (p :: c :: cs) = _
        rw [joinUnderscore_cons_cons, ih', joinUnderscore_cons_cons, List.map_cons]

/-! ### Claim C1 -/

/-- Claim C1, counterexample: an endpoint whose body is required with no
flat properties, but which also declares a required path parameter — the
compiled schema's required list is `["id"]`, not a single `body` entry, so
the injection is not independent of the other declared parameters. -/
theorem claim_C1_counterexample :
    eC1.request_body.map RequestBody.required = some true ∧
    flatBodyProps eC1 = [] ∧
    (createFunctionParameters eC1).required ≠ ["body"] ∧
    dictGet (createFunctionParameters eC1).properties "body" = none := by decide

/-- Claim C1 (amended): for an endpoint whose body is required and whose
body content declares no flat top-level properties, *provided the path and
query parameters contributed nothing to the required list and no collected
property is already named `body`*, the compiled schema's required list is
exactly `["body"]` and the `body` property is the generic object. -/
theorem claim_C1_amended (e : GenEndpoint) (rb : RequestBody)
    (hrb : e.request_body = some rb) (hreq : rb.required = true)
    (hflat : flatBodyProps e = [])
    (hbase : (baseAcc e).required = [])
    (hnob : dictGet (baseAcc e).properties "body" = none) :
    (createFunctionParameters e).required = ["body"] ∧
    dictGet (createFunctionParameters e).properties "body" = some bodyPropDef := by
  have hwb : withBody e =
      { properties := dictSet (baseAcc e).properties "body" bodyPropDef
        required := ["body"] } := by
    unfold withBody
    simp only [hrb, hflat, List.foldl_nil, hreq, hbase, and_self, if_true, hnob,
      Option.isNone_none, List.nil_append, true_and]
  have hne := dictSet_ne_nil (baseAcc e).properties "body" bodyPropDef
  constructor
  · unfold createFunctionParameters
    rw [hwb]
    simp [hne]
  · unfold createFunctionParameters
    rw [hwb]
    simp only [hne, if_false]
    exact dictGet_dictSet_self _ _ _

/-- Claim C1 witness: a concrete endpoint with an optional query parameter
and a required body with no content. -/
theorem claim_C1_witness :
    (createFunctionParameters eC1w).required = ["body"] ∧
    dictGet (createFunctionParameters eC1w).properties "body" = some bodyPropDef :=
  claim_C1_amended eC1w { required := true, content := [] }
    (by decide) (by decide) (by decide) (by decide) (by decide)

/-! ### Claim C7 -/

/-- Claim C7, counterexample: for the hyphenated path `/user-info` the
compiled name is `get_user_info` (the code additionally replaces hyphens and
spaces with underscores), not the spec derivation's `get_user-info`. -/
theorem claim_C7_counterexample :
    eC7.operation_id = none ∧ createFunctionName eC7 ≠ specDerivedName eC7 := by decide

/-- Claim C7 (amended): a truthy `operationId` is used verbatim; otherwise
the name is the lower-cased method, an underscore, and the slash-separated
path segments joined with underscores with each placeholder replaced by
`by_<param>` — and with hyphens and spaces then replaced by underscores. -/
theorem claim_C7_amended (e : GenEndpoint) :
    (∀ oid, e.operation_id = some oid → oid ≠ "" → createFunctionName e = oid) ∧
    (e.operation_id = none ∨ e.operation_id = some "" →
      createFunctionName e = specDerivedNameAmended e) := by
  constructor
  · intro oid hoid hne
    unfold createFunctionName
    rw [hoid]
    simp [hne]
  · intro h
    have hderive : deriveFunctionName e = specDerivedNameAmended e := by
      simp only [deriveFunctionName, specDerivedNameAmended, specDerivedName,
        joinUnderscore_cleanParts]
    cases h with
    | inl h0 => unfold createFunctionName; rw [h0]; exact hderive
    | inr h0 => unfold createFunctionName; rw [h0]; simp [hderive]

/-- Claim C7 witness: concrete evaluations through the amended theorem. -/
theorem claim_C7_witness :
    createFunctionName eC7w = specDerivedNameAmended eC7w :=
  (claim_C7_amended eC7w).2 (Or.inl (by decide))

/-! ### Claim C8 -/

/-- Claim C8: the compiled parameter schema never has an empty property set;
when path, query and body contribute nothing, it is exactly the single
`_no_params` placeholder property. -/
theorem claim_C8 (e : GenEndpoint) :
    (createFunctionParameters e).properties ≠ [] ∧
    ((withBody e).properties = [] →
      (createFunctionParameters e).properties = [("_no_params", noParamsDef)]) := by
  constructor
  · unfold createFunctionParameters
    by_cases h : (withBody e).properties = [] <;> simp [h]
  · intro h
    unfold createFunctionParameters
    simp [h]

/-- Claim C8 witness: the `/ping` endpoint with no parameters. -/
theorem claim_C8_witness :
    (withBody eC8).properties = [] ∧
    (createFunctionParameters eC8).properties = [("_no_params", noParamsDef)] :=
  ⟨by decide, (claim_C8 eC8).2 (by decide)⟩

/-! ### Claim C3 -/

/-- Claim C3, counterexample: running the Ollama adapter over a history whose
first message is the system prompt, with a non-empty function set, changes
that existing message's content in place — the history is not left
unchanged, and no message was added. -/
theorem claim_C3_counterexample :
    (ollamaMessagesAfter msgsC3 fnsC3).length = msgsC3.length ∧
    (ollamaMessagesAfter msgsC3 fnsC3).head?.map AdapterMsg.role =
      msgsC3.head?.map AdapterMsg.role ∧
    (ollamaMessagesAfter msgsC3 fnsC3).head?.map AdapterMsg.content ≠
      msgsC3.head?.map AdapterMsg.content := by decide

/-- Claim C3 (amended): the OpenAI and Anthropic adapters leave every
existing message unchanged, and so does the Ollama adapter when no functions
are supplied; with functions supplied, the Ollama adapter appends the
function descriptions to a leading system message's content in place,
leaving the tail unchanged, and otherwise inserts a fresh system message in
front of the untouched history. -/
theorem claim_C3_amended (msgs : List AdapterMsg) (fns : List FuncDecl) :
    openaiMessagesAfter msgs fns = msgs ∧
    anthropicMessagesAfter msgs fns = msgs ∧
    (fns = [] → ollamaMessagesAfter msgs fns = msgs) ∧
    (∀ m rest, msgs = m :: rest → fns ≠ [] → m.role = "system" →
      ollamaMessagesAfter msgs fns =
        { role := m.role, content := m.content ++ functionsDescription fns } :: rest) ∧
    (∀ m rest, msgs = m :: rest → fns ≠ [] → m.role ≠ "system" →
      ollamaMessagesAfter msgs fns =
        { role := "system"
          content := "You are a helpful assistant." ++ functionsDescription fns } ::
          msgs) := by
  refine ⟨rfl, rfl, ?_, ?_, ?_⟩
  · intro h
    simp [ollamaMessagesAfter, h]
  · intro m rest hm hf hr
    subst hm
    simp [ollamaMessagesAfter, hf, hr]
  · intro m rest hm hf hr
    subst hm
    simp [ollamaMessagesAfter, hf, hr]

/-- Claim C3 witness: the amended behaviour at the concrete history. -/
theorem claim_C3_witness :
    openaiMessagesAfter msgsC3 fnsC3 = msgsC3 ∧
    ollamaMessagesAfter msgsC3 fnsC3 =
      [{ role := "system", content := "S" ++ functionsDescription fnsC3 }] :=
  ⟨(claim_C3_amended msgsC3 fnsC3).1,
   (claim_C3_amended msgsC3 fnsC3).2.2.2.1
     { role := "system", content := "S" } [] rfl (by decide) rfl⟩

/-! ### Claim C4 -/

/-- The iteration counter never exceeds the starting counter plus the
fuel. -/
theorem chatLoopAux_counter_le (backend : Nat → LLMMsg) (fuel : Nat)
    (msg : LLMMsg) (iter : Nat) :
    (chatLoopAux backend fuel msg iter).2 ≤ iter + fuel := by
  induction fuel generalizing msg iter with
  | zero => simp [chatLoopAux]
  | succ f ih =>
    simp only [chatLoopAux]
    split
    · exact le_trans (ih (backend (iter + 1)) (iter + 1)) (by omega)
    · simp

/-- Under an always-invoking backend, the loop runs its full fuel and exits
holding the backend's last response. -/
theorem chatLoopAux_all_calls (backend : Nat → LLMMsg)
    (h : ∀ n, (backend n).function_call.isSome) (fuel : Nat) :
    ∀ iter, chatLoopAux backend fuel (backend iter) iter =
      (backend (iter + fuel), iter + fuel) := by
  induction fuel with
  | zero => intro iter; simp [chatLoopAux]
  | succ f ih =>
    intro iter
    simp only [chatLoopAux, h iter, if_true]
    rw [ih (iter + 1)]
    have harith : iter + 1 + f = iter + (f + 1) := by omega
    rw [harith]

/-- Claim C4: the function-calling loop performs at most `maxIterations`
iterations for every backend behaviour; when the backend requests a function
on every completion, the loop stops at exactly the ceiling and the turn
returns the last backend message's text when that is non-empty, else the
fixed fallback message. -/
theorem claim_C4 (backend : Nat → LLMMsg) :
    (runChatLoop backend).2 ≤ maxIterations ∧
    ((∀ n, (backend n).function_call.isSome) →
      (runChatLoop backend).2 = maxIterations ∧
      (∀ c, (backend maxIterations).content = some c → c ≠ "" →
        chatFinalText backend = c) ∧
      ((backend maxIterations).content = none ∨
          (backend maxIterations).content = some "" →
        chatFinalText backend = fallbackMessage)) := by
  constructor
  · have h := chatLoopAux_counter_le backend maxIterations (backend 0) 0
    simpa [runChatLoop] using h
  · intro h
    have hrun : runChatLoop backend = (backend maxIterations, maxIterations) := by
      unfold runChatLoop
      rw [chatLoopAux_all_calls backend h maxIterations 0]
      simp
    refine ⟨by rw [hrun], ?_, ?_⟩
    · intro c hc hne
      unfold chatFinalText
      rw [hrun]
      simp [finalContent, hc, hne]
    · intro hcase
      unfold chatFinalText
      rw [hrun]
      cases hcase with
      | inl h0 => simp [finalContent, h0]
      | inr h0 => simp [finalContent, h0]

/-- Claim C4 witness: the constant function-requesting backend exhausts the
ceiling and yields the fallback text. -/
theorem claim_C4_witness :
    (runChatLoop backendC4).2 = maxIterations ∧
    chatFinalText backendC4 = fallbackMessage := by
  have h := claim_C4 backendC4
  have hf : ∀ n, (backendC4 n).function_call.isSome := fun _ => rfl
  exact ⟨(h.2 hf).1, (h.2 hf).2.2 (Or.inl rfl)⟩

/-! ### Shared helper lemmas on the execution engine -/

/-- A string with a non-empty left part of an append is non-empty. -/
theorem append_left_ne_empty (a b : String) (ha : a ≠ "") : a ++ b ≠ "" := by
  intro h
  have hd := congrArg String.data h
  rw [String.data_append] at hd
  exact ha (String.ext (List.append_eq_nil.mp hd).1)

/-- When every resolution step succeeds, `execute_function_call` returns the
HTTP request's result. -/
theorem executeFunctionCall_resolved (db : DbM) (agent : AgentM) (name : String)
    (args : List (String × JVal)) (net : NetOutcome) (f : AgentFunc) (i : Int)
    (ep : ExecEndpoint) (doc : SwaggerDocM)
    (h1 : findFunction agent.available_functions name = some f)
    (h2 : f.metadata.bind FuncMeta.endpoint_id = some i) (h3 : i ≠ 0)
    (h4 : idGet db.endpoints i = some ep)
    (h5 : idGet db.swaggerDocs ep.swagger_doc_id = some doc) :
    executeFunctionCall db agent name args net =
      .ok (execHttpRequest ep doc args net) := by
  simp only [executeFunctionCall, h1, h2, h3, h4, h5, if_false, if_neg]

/-- A received response is encoded field by field. -/
theorem execHttpRequest_response (ep : ExecEndpoint) (doc : SwaggerDocM)
    (args : List (String × JVal)) (st : Nat) (j : Option JVal) (txt fUrl : String)
    (hm : pyUpper ep.method ∈ supportedMethods) :
    execHttpRequest ep doc args (.response st j txt fUrl) =
      { success := decide (st < 400), status_code := st, url := fUrl
        method := pyUpper ep.method
        data := some (match j with | some v => .jsonData v | none => .textData txt)
        error :=
          if 400 ≤ st then
            some ("HTTP " ++ toString st ++ ": " ++ String.mk (txt.data.take 200))
          else none } := by
  unfold execHttpRequest
  rw [if_neg (show ¬ pyUpper ep.method ∉ supportedMethods from fun hh => hh hm)]

/-! ### Claim C2 -/

/-- Claim C2, counterexample: an unknown function name is not encoded in an
Execution Result — `execute_function_call` raises `ValueError` past the
engine boundary. -/
theorem claim_C2_counterexample :
    executeFunctionCall dbEmpty agentEmpty "foo" [] NetOutcome.timeout =
      Except.error "Function \x27foo\x27 not found in agent\x27s available functions" := rfl

/-- Claim C2 (amended): once the invocation resolves (function found, truthy
endpoint metadata, endpoint and swagger doc present) the engine always
returns an Execution Result and never raises; the resolution failures raise
`ValueError`, which the orchestrator's per-invocation handler catches and
turns into an error-bearing function-result turn instead of aborting. -/
theorem claim_C2_amended :
    (∀ (db : DbM) (agent : AgentM) (name : String) (args : List (String × JVal))
        (net : NetOutcome) (f : AgentFunc) (i : Int) (ep : ExecEndpoint)
        (doc : SwaggerDocM),
      findFunction agent.available_functions name = some f →
      f.metadata.bind FuncMeta.endpoint_id = some i → i ≠ 0 →
      idGet db.endpoints i = some ep →
      idGet db.swaggerDocs ep.swagger_doc_id = some doc →
      executeFunctionCall db agent name args net =
        .ok (execHttpRequest ep doc args net)) ∧
    (∀ (db : DbM) (agent : AgentM) (fc : FCall) (net : NetOutcome) (e : String),
      executeFunctionCall db agent fc.name (parseArgsDict fc.arguments) net =
        .error e →
      (appendedMessages db agent fc net).map Message.role =
        ["assistant", "function"] ∧
      ((appendedMessages db agent fc net).getLast?).bind Message.content =
        some ("Error executing function: " ++ e)) := by
  constructor
  · intro db agent name args net f i ep doc h1 h2 h3 h4 h5
    exact executeFunctionCall_resolved db agent name args net f i ep doc h1 h2 h3 h4 h5
  · intro db agent fc net e h
    constructor
    · simp [appendedMessages]
    · simp [appendedMessages, runFunctionCall, h, List.getLast?]

/-- Claim C2 witness: a resolvable invocation returns a result even on a
network timeout, and the unknown-function error is surfaced in the
function-result turn. -/
theorem claim_C2_witness :
    executeFunctionCall dbC agentC "get_pet" [] NetOutcome.timeout =
      .ok (execHttpRequest epC docC [] NetOutcome.timeout) ∧
    ((appendedMessages dbEmpty agentEmpty fcBad NetOutcome.timeout).getLast?).bind
        Message.content =
      some ("Error executing function: " ++
        "Function \x27foo\x27 not found in agent\x27s available functions") :=
  ⟨claim_C2_amended.1 dbC agentC "get_pet" [] NetOutcome.timeout
      { name := "get_pet", metadata := some { endpoint_id := some 7 } } 7 epC docC
      rfl rfl (by decide) rfl rfl,
   (claim_C2_amended.2 dbEmpty agentEmpty fcBad NetOutcome.timeout
      "Function \x27foo\x27 not found in agent\x27s available functions" rfl).2⟩

/-! ### Claim C5 -/

/-- Claim C5: a remote response with status ≥ 400 (e.g. 404) and a parsed
JSON body yields an Execution Result with `success = false`, the response's
status code, that parsed body, and a non-empty error string — and the
conversation receives the assistant invocation turn plus a function-result
turn carrying the formatted result instead of the turn aborting. -/
theorem claim_C5 (db : DbM) (agent : AgentM) (fc : FCall) (f : AgentFunc) (i : Int)
    (ep : ExecEndpoint) (doc : SwaggerDocM) (st : Nat) (v : JVal) (txt fUrl : String)
    (h1 : findFunction agent.available_functions fc.name = some f)
    (h2 : f.metadata.bind FuncMeta.endpoint_id = some i) (h3 : i ≠ 0)
    (h4 : idGet db.endpoints i = some ep)
    (h5 : idGet db.swaggerDocs ep.swagger_doc_id = some doc)
    (hm : pyUpper ep.method ∈ supportedMethods)
    (hst : 400 ≤ st) :
    (execHttpRequest ep doc (parseArgsDict fc.arguments)
        (.response st (some v) txt fUrl)).success = false ∧
    (execHttpRequest ep doc (parseArgsDict fc.arguments)
        (.response st (some v) txt fUrl)).status_code = st ∧
    (execHttpRequest ep doc (parseArgsDict fc.arguments)
        (.response st (some v) txt fUrl)).data = some (.jsonData v) ∧
    (∃ es, (execHttpRequest ep doc (parseArgsDict fc.arguments)
        (.response st (some v) txt fUrl)).error = some es ∧ es ≠ "") ∧
    appendedMessages db agent fc (.response st (some v) txt fUrl) =
      [{ role := "assistant", content := none, function_call := some fc }
       , { role := "function"
           content := some (formatResultForLLM (execHttpRequest ep doc
             (parseArgsDict fc.arguments) (.response st (some v) txt fUrl)))
           name := some fc.name }] := by
  have hr := execHttpRequest_response ep doc (parseArgsDict fc.arguments)
    st (some v) txt fUrl hm
  refine ⟨?_, ?_, ?_, ?_, ?_⟩
  · rw [hr]
    simp only [decide_eq_false_iff_not]
    omega
  · rw [hr]
  · rw [hr]
  · rw [hr]
    refine ⟨"HTTP " ++ toString st ++ ": " ++ String.mk (txt.data.take 200),
      by simp [hst], ?_⟩
    exact append_left_ne_empty _ _
      (append_left_ne_empty _ _ (append_left_ne_empty "HTTP " _ (by decide)))
  · simp only [appendedMessages, runFunctionCall,
      executeFunctionCall_resolved db agent fc.name (parseArgsDict fc.arguments)
        (.response st (some v) txt fUrl) f i ep doc h1 h2 h3 h4 h5]

/-- Claim C5 witness: the concrete 404 round trip through the pet agent. -/
theorem claim_C5_witness :
    (execHttpRequest epC docC (parseArgsDict fcC5.arguments) netC5).success = false ∧
    (execHttpRequest epC docC (parseArgsDict fcC5.arguments) netC5).status_code = 404 ∧
    (execHttpRequest epC docC (parseArgsDict fcC5.arguments) netC5).data =
      some (.jsonData (.jobj [("detail", .jstr "Not found")])) ∧
    appendedMessages dbC agentC fcC5 netC5 =
      [{ role := "assistant", content := none, function_call := some fcC5 }
       , { role := "function"
           content := some (formatResultForLLM (execHttpRequest epC docC
             (parseArgsDict fcC5.arguments) netC5))
           name := some fcC5.name }] := by
  have h := claim_C5 dbC agentC fcC5
    { name := "get_pet", metadata := some { endpoint_id := some 7 } } 7 epC docC
    404 (.jobj [("detail", .jstr "Not found")])
    "\x7b\"detail\": \"Not found\"\x7d" "https://api.example.com/pets/3"
    rfl rfl (by decide) rfl rfl (by decide) (by decide)
  exact ⟨h.1, h.2.1, h.2.2.1, h.2.2.2.2⟩

/-! ### Claim C10 -/

/-- Claim C10: every dispatch that raises before a response is received is
still encoded in the Execution Result with a distinguishing status code —
timeout gives 408, connection failure gives 0, any other exception
(including the unsupported-method `ValueError` raised inside the `try`)
gives 0 — each with a non-empty error string and the attempted method and
URL. -/
theorem claim_C10 (ep : ExecEndpoint) (doc : SwaggerDocM)
    (args : List (String × JVal)) :
    (pyUpper ep.method ∈ supportedMethods →
      execHttpRequest ep doc args .timeout =
        { success := false, status_code := 408, url := buildUrl ep doc args
          method := pyUpper ep.method, data := none
          error := some "Request timeout - the API took too long to respond" } ∧
      execHttpRequest ep doc args .connectError =
        { success := false, status_code := 0, url := buildUrl ep doc args
          method := pyUpper ep.method, data := none
          error := some ("Could not connect to " ++ buildUrl ep doc args) } ∧
      (∀ m, execHttpRequest ep doc args (.failure m) =
        { success := false, status_code := 0, url := buildUrl ep doc args
          method := pyUpper ep.method, data := none
          error := some ("Execution error: " ++ m) })) ∧
    (pyUpper ep.method ∉ supportedMethods →
      ∀ net, execHttpRequest ep doc args net =
        { success := false, status_code := 0, url := buildUrl ep doc args
          method := pyUpper ep.method, data := none
          error := some ("Execution error: Unsupported HTTP method: " ++
            pyUpper ep.method) }) := by
  constructor
  · intro hm
    have hnot : ¬ pyUpper ep.method ∉ supportedMethods := fun hh => hh hm
    refine ⟨?_, ?_, ?_⟩
    · unfold execHttpRequest
      rw [if_neg hnot]
    · unfold execHttpRequest
      rw [if_neg hnot]
    · intro m
      unfold execHttpRequest
      rw [if_neg hnot]
  · intro hm net
    unfold execHttpRequest
    rw [if_pos hm]

/-- Claim C10 witness: the three transport failures on the pet endpoint and
the unsupported `TRACE` dispatch. -/
theorem claim_C10_witness :
    (execHttpRequest epC docC [] .timeout).status_code = 408 ∧
    (execHttpRequest epC docC [] .connectError).status_code = 0 ∧
    (execHttpRequest epC docC [] (.failure "boom")).error =
      some ("Execution error: " ++ "boom") ∧
    (execHttpRequest epTrace docC [] .timeout).error =
      some ("Execution error: Unsupported HTTP method: " ++ pyUpper epTrace.method) := by
  have h := (claim_C10 epC docC []).1 (by decide)
  have ht := (claim_C10 epTrace docC []).2 (by decide) NetOutcome.timeout
  exact ⟨by rw [h.1], by rw [h.2.1], by rw [h.2.2 "boom"], by rw [ht]⟩

/-! ### Claim C6 -/

/-- Claim C6: a backend invocation whose argument payload fails the JSON
parse proceeds with an empty argument object — the invocation is executed
and tracked exactly as if the payload had been `\x7b\x7d`, and the two
conversation turns are still appended; no parse failure propagates. -/
theorem claim_C6 (db : DbM) (agent : AgentM) (fc : FCall) (net : NetOutcome)
    (h : jsonLoads fc.arguments.data = none) :
    parseArgsDict fc.arguments = [] ∧
    (runFunctionCall db agent fc net).record.arguments = [] ∧
    (runFunctionCall db agent fc net).resultStr =
      (runFunctionCall db agent { name := fc.name, arguments := "\x7b\x7d" } net).resultStr ∧
    (appendedMessages db agent fc net).map Message.role = ["assistant", "function"] := by
  have hp : parseArgsDict fc.arguments = [] := by
    unfold parseArgsDict
    rw [h]
  have hp2 : parseArgsDict "\x7b\x7d" = [] := rfl
  refine ⟨hp, ?_, ?_, ?_⟩
  · cases hex : executeFunctionCall db agent fc.name [] net with
    | ok r => simp [runFunctionCall, hp, hex]
    | error e => simp [runFunctionCall, hp, hex]
  · simp only [runFunctionCall, hp, hp2]
  · simp [appendedMessages]

/-- Claim C6 witness: the malformed payload `not json` behaves as `\x7b\x7d`. -/
theorem claim_C6_witness :
    parseArgsDict fcBad.arguments = [] ∧
    (runFunctionCall dbEmpty agentEmpty fcBad NetOutcome.timeout).resultStr =
      (runFunctionCall dbEmpty agentEmpty { name := "foo", arguments := "\x7b\x7d" }
        NetOutcome.timeout).resultStr := by
  have h := claim_C6 dbEmpty agentEmpty fcBad NetOutcome.timeout rfl
  exact ⟨h.1, h.2.2.1⟩

/-! ### Claim C9 -/

/-- A JSON value cannot start after `\x7b` with an apostrophe. -/
theorem parseMembers_apos (fuel : Nat) (cs : List Char) :
    parseMembers fuel (aposC :: cs) = none := by
  cases fuel with
  | zero => rfl
  | succ f =>
    simp only [parseMembers, List.dropWhile_cons, show isJWs aposC = false from rfl,
      Bool.false_eq_true, if_false]
    rw [if_neg (show ¬ aposC = '}' by decide), if_neg (show ¬ aposC = '"' by decide)]

/-- One value-parser step into an object body. -/
theorem parseVal_obj (fuel : Nat) (cs : List Char) :
    parseVal (fuel + 1) ('{' :: cs) = parseMembers fuel cs := by
  simp only [parseVal, List.dropWhile_cons, show isJWs '{' = false from rfl,
    Bool.false_eq_true, if_false]

/-- `json.loads` rejects every document that starts `\x7b\x27`. -/
theorem jsonLoads_brace_apos (cs : List Char) :
    jsonLoads ('{' :: aposC :: cs) = none := by
  unfold jsonLoads
  have hfuel : 3 * ('{' :: aposC :: cs).length + 3 = 3 * cs.length + 8 + 1 := by
    simp [List.length_cons]
    omega
  rw [hfuel, parseVal_obj, parseMembers_apos]

/-- The Python `str()` of a dict whose first key carries no apostrophe
starts with `\x7b\x27`. -/
theorem pyStr_obj_cons_shape (k : String) (v : JVal) (t : List (String × JVal))
    (hk : k.data.contains aposC = false) :
    ∃ rest, (pyStr (JVal.jobj ((k, v) :: t))).data = '{' :: aposC :: rest := by
  have hq : ∃ qrest, reprStrChars k = aposC :: qrest := by
    unfold reprStrChars
    rw [hk]
    simp
  obtain ⟨qrest, hq⟩ := hq
  have hobj : ∃ orest, pyReprObj ((k, v) :: t) = reprStrChars k ++ orest := by
    cases t with
    | nil => exact ⟨':' :: ' ' :: pyReprChars v, rfl⟩
    | cons p r =>
      exact ⟨':' :: ' ' :: (pyReprChars v ++ (',' :: ' ' :: pyReprObj (p :: r))), rfl⟩
  obtain ⟨orest, hobj⟩ := hobj
  have hshape : pyStrChars (JVal.jobj ((k, v) :: t)) =
      '{' :: (pyReprObj ((k, v) :: t) ++ ['}']) := rfl
  refine ⟨qrest ++ orest ++ ['}'], ?_⟩
  show pyStrChars (JVal.jobj ((k, v) :: t)) = _
  rw [hshape, hobj, hq]
  simp [List.cons_append, List.append_assoc]

/-- Claim C9, counterexample: a non-empty tool-use input whose `str()` is
valid JSON — the key `it\x27s` is repr-quoted with double quotes — survives
the adapter round trip with its arguments intact, so survival is not
restricted to the empty input object. -/
theorem claim_C9_counterexample :
    inpC9 ≠ [] ∧
    (convertAnthropicMessage [ABlock.toolUse "tu1" "get_pet" inpC9]).function_call =
      some { name := "get_pet", arguments := pyStr (.jobj inpC9) } ∧
    parseArgsDict (pyStr (.jobj inpC9)) = inpC9 := by
  refine ⟨by simp [inpC9], rfl, rfl⟩

/-- Claim C9 (amended): the adapter serializes a tool-use input with
Python's `str()`; for every non-empty input whose first key contains no
apostrophe the payload starts with a single-quoted key and is not valid
JSON, so the orchestrator's defensive parse degrades the invocation to the
empty argument map.  (An input whose `str()` happens to be valid JSON — an
apostrophe-bearing key, as in the counterexample — survives instead.) -/
theorem claim_C9_amended (tid tname k : String) (v : JVal) (t : List (String × JVal))
    (hk : k.data.contains aposC = false) :
    ∃ fc, (convertAnthropicMessage [ABlock.toolUse tid tname ((k, v) :: t)]).function_call =
        some fc ∧
      fc.name = tname ∧
      fc.arguments = pyStr (.jobj ((k, v) :: t)) ∧
      parseArgsDict fc.arguments = [] := by
  refine ⟨{ name := tname, arguments := pyStr (.jobj ((k, v) :: t)) }, rfl, rfl, rfl, ?_⟩
  unfold parseArgsDict
  obtain ⟨rest, hrest⟩ := pyStr_obj_cons_shape k v t hk
  rw [hrest, jsonLoads_brace_apos]

/-- Claim C9 witness: a plain one-key input degrades to empty arguments. -/
theorem claim_C9_witness :
    ∃ fc, (convertAnthropicMessage
        [ABlock.toolUse "tu1" "get_pet" [("id", JVal.jint 3)]]).function_call = some fc ∧
      fc.name = "get_pet" ∧
      fc.arguments = pyStr (.jobj [("id", JVal.jint 3)]) ∧
      parseArgsDict fc.arguments = [] :=
  claim_C9_amended "tu1" "get_pet" "id" (JVal.jint 3) [] (by decide)

end AgentSwagger
